import Mathlib

/-!
Verification development for the TTL garbage-collection reconciler
(`src/hack/tools.go`, package `taskrun`) and the Task specification
validator with its variable-usage analyzer (`src/unnamed/part_000`,
package `v1alpha2`).

The Go code is shallowly embedded: pure Go functions become Lean
functions; the reconciler's side effects (deferred requeues via
`EnqueueAfter`, the precondition-guarded `Delete` call) are made
explicit in the return values; fallible Go code returns `Except` /
`Option`.  Instants of `time.Time` are modelled as integers (an
absolute timeline), so Go's `UTC()` normalization is the identity and
`time.Duration` is an integer as well.  The Go `nil` pointer /
zero-value distinctions become `Option`.

Definitions whose Go source lies in this repository but outside the
provided slice (`IsDone`, `HasPipelineRunOwnerReference`,
`MergeStepsWithStepTemplate`, the `substitution` package, the
Kubernetes DNS-label validation) are modelled from the specification
and are marked `Modelled from the spec:` in their doc comments.
-/

/-! ## Data model of the TTL reconciler (src/hack/tools.go) -/

/-- Tri-state condition status, Go `v1.ConditionStatus`
(`ConditionTrue` / `ConditionFalse` / `ConditionUnknown`). -/
inductive CondStatus where
  | condTrue
  | condFalse
  | condUnknown
deriving DecidableEq, Repr

/-- A timestamped condition record on a run (`apis.Condition`).
`lastTransitionTime = none` models Go's zero `time.Time`
(`finishAt.Inner.IsZero()`). -/
structure StatusCondition where
  condType : String
  status : CondStatus
  lastTransitionTime : Option Int
deriving DecidableEq, Repr

/-- `apis.ConditionSucceeded`. -/
def ConditionSucceeded : String := "Succeeded"

/-- An owner reference carried by a run (`metav1.OwnerReference`):
only the owner's kind matters to this slice. -/
structure OwnerReference where
  kind : String
  name : String
deriving DecidableEq, Repr

/-- `TaskRunSpec`, restricted to the field this slice reads:
`ExpirationSecondsTTL *metav1.Duration` (none models the nil pointer). -/
structure TaskRunSpec where
  expirationSecondsTTL : Option Int
deriving DecidableEq, Repr

/-- `TaskRunStatus`, restricted to the condition list. -/
structure TaskRunStatus where
  conditions : List StatusCondition
deriving DecidableEq, Repr

/-- A TaskRun object.  `deletionTimestamp = none` models the nil
`DeletionTimestamp` pointer; `uid` is the Kubernetes UID string. -/
structure TaskRun where
  ns : String
  name : String
  uid : String
  deletionTimestamp : Option Int
  ownerReferences : List OwnerReference
  spec : TaskRunSpec
  status : TaskRunStatus
deriving DecidableEq, Repr

/-- Modelled from the spec: `HasPipelineRunOwnerReference` (repository
code outside this slice) reports whether the run carries an owner
reference to a parent PipelineRun ("an optional owner reference to a
parent aggregate run"; "parent-owned runs are cleaned up by the
parent's lifecycle"). -/
def TaskRun.HasPipelineRunOwnerReference (tr : TaskRun) : Bool :=
  tr.ownerReferences.any fun o => o.kind == "PipelineRun"

/-- Modelled from the spec: `IsDone` (repository code outside this
slice) reports whether the run "has reached a terminal condition
(succeeded or failed — not unknown)", i.e. carries a Succeeded-type
condition whose status is not Unknown. -/
def TaskRun.IsDone (tr : TaskRun) : Bool :=
  tr.status.conditions.any fun c =>
    c.condType == ConditionSucceeded && !(c.status == CondStatus.condUnknown)

/-- `taskRunCleanup` (tools.go:170): the run has a TTL set, is done,
and has no PipelineRun owner reference. -/
def taskRunCleanup (tr : TaskRun) : Bool :=
  !(tr.spec.expirationSecondsTTL == none) && tr.IsDone
    && !tr.HasPipelineRunOwnerReference

/-- The cleanup-eligibility guard as the reconciler applies it: the
conjunction `tr.DeletionTimestamp == nil && taskRunCleanup(tr)` used at
tools.go:40, tools.go:49 and (negated) tools.go:106. -/
def cleanupEligible (tr : TaskRun) : Bool :=
  tr.deletionTimestamp == none && taskRunCleanup tr

/-- Errors produced by the reconciler slice. -/
inductive TRError where
  /-- `"TaskRun %s/%s should not be cleaned up"` (tools.go:127). -/
  | shouldNotBeCleanedUp (ns nm : String)
  /-- `"unable to find the time when the taskRun %s/%s succeeded"`
  (tools.go:159). -/
  | missingFinishTime (ns nm : String)
  /-- `"unable to find the status of the succeeded taskRun %s/%s"`
  (tools.go:166). -/
  | missingSucceededStatus (ns nm : String)
  /-- An error surfaced by the object-store client (Get or Delete). -/
  | storeError (msg : String)
deriving DecidableEq, Repr

/-- `taskRunFinishTime` (tools.go:154): the last-transition time of the
first Succeeded-type condition whose status is not Unknown; errors when
that time is the zero time or no such condition exists. -/
def taskRunFinishTime (tr : TaskRun) : Except TRError Int :=
  match tr.status.conditions.find? (fun c =>
      c.condType == ConditionSucceeded
        && !(c.status == CondStatus.condUnknown)) with
  | some con =>
      match con.lastTransitionTime with
      | none => .error (.missingFinishTime tr.ns tr.name)
      | some t => .ok t
  | none => .error (.missingSucceededStatus tr.ns tr.name)

/-- `getFinishAndExpireTime` (tools.go:125).  The TTL dereference
`tr.Spec.ExpirationSecondsTTL.Duration` is guarded by `taskRunCleanup`,
which guarantees the pointer is non-nil; `getD 0` stands for that
guarded dereference.  UTC normalization is the identity in this model. -/
def getFinishAndExpireTime (tr : TaskRun) : Except TRError (Int × Int) :=
  if !taskRunCleanup tr then
    .error (.shouldNotBeCleanedUp tr.ns tr.name)
  else
    match taskRunFinishTime tr with
    | .error e => .error e
    | .ok finishAt =>
        .ok (finishAt, finishAt + tr.spec.expirationSecondsTTL.getD 0)

/-- `trTimeLeft` (tools.go:138): remaining = expireAt − since.  The
clock-skew branch only logs a warning and does not alter the result. -/
def trTimeLeft (tr : TaskRun) (since : Int) : Except TRError Int :=
  match getFinishAndExpireTime tr with
  | .error e => .error e
  | .ok (_, expireAt) => .ok (expireAt - since)

/-- Result of one `processTrTTL` invocation: whether the TTL was
reported expired, and the duration passed to `EnqueueAfter` when that
call was made (the function calls `EnqueueAfter` at most once). -/
structure TTLCheck where
  expired : Bool
  enqueueAfter : Option Int
deriving DecidableEq, Repr

/-- `processTrTTL` (tools.go:104): runs being deleted or not needing
cleanup are skipped; otherwise the time left decides between reporting
expiry and scheduling a deferred requeue for exactly the remaining
duration. -/
def processTrTTL (tr : TaskRun) (now : Int) : Except TRError TTLCheck :=
  if tr.deletionTimestamp.isSome || !taskRunCleanup tr then
    .ok { expired := false, enqueueAfter := none }
  else
    match trTimeLeft tr now with
    | .error e => .error e
    | .ok t =>
        if t ≤ 0 then
          .ok { expired := true, enqueueAfter := none }
        else
          .ok { expired := false, enqueueAfter := some t }

/-- Kubernetes delete propagation policy. -/
inductive Propagation where
  | foreground
  | background
  | orphan
deriving DecidableEq, Repr

/-- One `Delete` call issued against the object store, with its
propagation policy and UID precondition (tools.go:93-99). -/
structure DeleteCall where
  ns : String
  name : String
  policy : Propagation
  preconditionUID : String
deriving DecidableEq, Repr

/-- Observable side effects of one `processTaskRunExpired` invocation:
the durations passed to `EnqueueAfter` and the delete calls issued, in
order. -/
structure ProcessEffects where
  enqueuedAfter : List Int
  deleted : List DeleteCall
deriving DecidableEq, Repr

/-- Outcome of the authoritative `Get` re-fetch (tools.go:75):
found, not-found (`errors.IsNotFound`), or another store error. -/
inductive GetResult where
  | found (tr : TaskRun)
  | notFound
  | getError (msg : String)
deriving DecidableEq, Repr

/-- `processTaskRunExpired` (tools.go:59): the `ProcessKey`
reconciliation entry point.  `tr` is the cached copy looked up by key;
`now1` and `now2` are the two clock readings inside the two
`processTrTTL` calls; `freshGet` is the store's answer to the
authoritative re-fetch; `delErr` is the store's answer to the delete
call when one is issued (none = success).  Returns the Go error result
together with the observable effects. -/
def processTaskRunExpired (ns nm : String) (tr : TaskRun) (now1 now2 : Int)
    (freshGet : GetResult) (delErr : Option String) :
    Option TRError × ProcessEffects :=
  if tr.HasPipelineRunOwnerReference then
    (none, ⟨[], []⟩)
  else
    match processTrTTL tr now1 with
    | .error e => (some e, ⟨[], []⟩)
    | .ok c1 =>
        let eff1 := c1.enqueueAfter.toList
        if !c1.expired then
          (none, ⟨eff1, []⟩)
        else
          match freshGet with
          | .notFound => (none, ⟨eff1, []⟩)
          | .getError msg => (some (.storeError msg), ⟨eff1, []⟩)
          | .found fresh =>
              if fresh.HasPipelineRunOwnerReference then
                (none, ⟨eff1, []⟩)
              else
                match processTrTTL fresh now2 with
                | .error e => (some e, ⟨eff1, []⟩)
                | .ok c2 =>
                    let eff2 := eff1 ++ c2.enqueueAfter.toList
                    if !c2.expired then
                      (none, ⟨eff2, []⟩)
                    else
                      (delErr.map .storeError,
                       ⟨eff2, [⟨fresh.ns, fresh.name, .foreground, fresh.uid⟩]⟩)

/-! ## Helper lemmas about the reconciler -/

theorem cleanupEligible_split (tr : TaskRun) (h : cleanupEligible tr = true) :
    tr.deletionTimestamp = none ∧ taskRunCleanup tr = true := by
  simp [cleanupEligible] at h
  exact h

theorem taskRunCleanup_no_owner (tr : TaskRun) (h : taskRunCleanup tr = true) :
    tr.HasPipelineRunOwnerReference = false := by
  simp [taskRunCleanup] at h
  tauto

theorem processTrTTL_error_of_bad_finish (tr : TaskRun) (now : Int) (e : TRError)
    (hcl : taskRunCleanup tr = true) (hdel : tr.deletionTimestamp = none)
    (hft : taskRunFinishTime tr = .error e) :
    processTrTTL tr now = .error e := by
  simp [processTrTTL, trTimeLeft, getFinishAndExpireTime, hcl, hdel, hft]

/-! ## Claim theorems for the TTL reconciler -/

/-- C2: the cleanup-eligibility predicate (the guard
`DeletionTimestamp == nil && taskRunCleanup`) holds iff the TTL is set,
a terminal (Succeeded-type, non-Unknown) condition exists, no
PipelineRun owner reference is present, and the deletion timestamp is
unset; in particular no-TTL runs and owner-referenced runs are never
eligible. -/
theorem cleanupEligible_characterization (tr : TaskRun) :
    (cleanupEligible tr = true ↔
      (tr.spec.expirationSecondsTTL ≠ none
        ∧ (∃ c ∈ tr.status.conditions,
            c.condType = ConditionSucceeded ∧ c.status ≠ CondStatus.condUnknown)
        ∧ (∀ o ∈ tr.ownerReferences, o.kind ≠ "PipelineRun")
        ∧ tr.deletionTimestamp = none))
    ∧ (tr.spec.expirationSecondsTTL = none → cleanupEligible tr = false)
    ∧ (tr.HasPipelineRunOwnerReference = true → cleanupEligible tr = false) := by
  refine ⟨?_, ?_, ?_⟩
  · simp [cleanupEligible, taskRunCleanup, TaskRun.IsDone,
      TaskRun.HasPipelineRunOwnerReference, List.any_eq_true]
    tauto
  · intro h
    simp [cleanupEligible, taskRunCleanup, h]
  · intro h
    simp [cleanupEligible, taskRunCleanup, h]

/-- C3: for an eligible run with finish time `f` and TTL `d`, checking
at `now < f + d` reports not-expired and schedules exactly one deferred
requeue of exactly `f + d - now`; checking at `now ≥ f + d` reports
expired and schedules nothing. -/
theorem processTrTTL_requeue_or_expired (tr : TaskRun) (f d now : Int)
    (he : cleanupEligible tr = true)
    (hf : taskRunFinishTime tr = .ok f)
    (hd : tr.spec.expirationSecondsTTL = some d) :
    (now < f + d →
      processTrTTL tr now = .ok ⟨false, some (f + d - now)⟩)
    ∧ (f + d ≤ now → processTrTTL tr now = .ok ⟨true, none⟩) := by
  obtain ⟨hdel, hcl⟩ := cleanupEligible_split tr he
  constructor
  · intro ht
    have hpos : ¬(f + d - now ≤ 0) := by omega
    simp [processTrTTL, trTimeLeft, getFinishAndExpireTime, hcl, hdel, hf, hd, hpos]
  · intro ht
    have hneg : f + d - now ≤ 0 := by omega
    simp [processTrTTL, trTimeLeft, getFinishAndExpireTime, hcl, hdel, hf, hd, hneg]

/-- Witness for C3: a run finished at time 0 with TTL 60, checked at 30
and at 100. -/
def trTTL60 : TaskRun :=
  { ns := "ns", name := "n", uid := "u1", deletionTimestamp := none,
    ownerReferences := [],
    spec := { expirationSecondsTTL := some 60 },
    status := { conditions := [⟨ConditionSucceeded, .condTrue, some 0⟩] } }

theorem processTrTTL_requeue_or_expired_witness :
    cleanupEligible trTTL60 = true
    ∧ taskRunFinishTime trTTL60 = .ok 0
    ∧ trTTL60.spec.expirationSecondsTTL = some 60
    ∧ processTrTTL trTTL60 30 = .ok ⟨false, some 30⟩
    ∧ processTrTTL trTTL60 100 = .ok ⟨true, none⟩ :=
  ⟨rfl, rfl, rfl,
    (processTrTTL_requeue_or_expired trTTL60 0 60 30 rfl rfl rfl).1 (by norm_num),
    (processTrTTL_requeue_or_expired trTTL60 0 60 100 rfl rfl rfl).2 (by norm_num)⟩

/-- A cached copy whose TTL (60) has expired by time 100: finished at
time 0, eligible, not owned. -/
def trC1cached : TaskRun :=
  { ns := "ns", name := "n", uid := "u1", deletionTimestamp := none,
    ownerReferences := [],
    spec := { expirationSecondsTTL := some 60 },
    status := { conditions := [⟨ConditionSucceeded, .condTrue, some 0⟩] } }

/-- The authoritative copy of the same run after its TTL was extended
to 1000: at time 100 it is eligible but no longer expired. -/
def trC1fresh : TaskRun :=
  { trC1cached with spec := { expirationSecondsTTL := some 1000 } }

/-- The authoritative copy of the same run after a deletion was
requested externally: no longer eligible. -/
def trC1deleting : TaskRun :=
  { trC1cached with deletionTimestamp := some 90 }

/-- C1, counterexample: the cached copy reports expired (so the
authoritative re-fetch of step 5 happens), the re-check on the fresh
copy reports not-yet-expired — and yet an `EnqueueAfter` for the fresh
remaining duration (900) IS performed on that path, contrary to the
claim that no deferred requeue is scheduled there. -/
theorem fresh_recheck_requeues_cex :
    processTrTTL trC1cached 100 = .ok ⟨true, none⟩
    ∧ processTrTTL trC1fresh 100 = .ok ⟨false, some 900⟩
    ∧ processTaskRunExpired "ns" "n" trC1cached 100 100 (.found trC1fresh) none =
        (none, ⟨[900], []⟩) :=
  ⟨rfl, rfl, rfl⟩

/-- C1, amended: after the authoritative re-fetch, if the fresh copy is
no longer eligible (or is parent-owned) processing stops with no
requeue and no delete; but if the fresh copy is still eligible and not
yet expired, processing stops without deleting and schedules exactly
one deferred requeue for the fresh remaining duration. -/
theorem fresh_recheck_effects (ns nm : String) (tr fresh : TaskRun)
    (now1 now2 : Int) (delErr : Option String)
    (hown : tr.HasPipelineRunOwnerReference = false)
    (hexp : processTrTTL tr now1 = .ok ⟨true, none⟩) :
    (cleanupEligible fresh = false →
      processTaskRunExpired ns nm tr now1 now2 (.found fresh) delErr =
        (none, ⟨[], []⟩))
    ∧ (fresh.HasPipelineRunOwnerReference = true →
      processTaskRunExpired ns nm tr now1 now2 (.found fresh) delErr =
        (none, ⟨[], []⟩))
    ∧ (∀ t : Int, cleanupEligible fresh = true → trTimeLeft fresh now2 = .ok t →
        0 < t →
      processTaskRunExpired ns nm tr now1 now2 (.found fresh) delErr =
        (none, ⟨[t], []⟩)) := by
  refine ⟨?_, ?_, ?_⟩
  · intro hinel
    by_cases hfo : fresh.HasPipelineRunOwnerReference
    · simp [processTaskRunExpired, hown, hexp, hfo]
    · have hguard : fresh.deletionTimestamp.isSome || !taskRunCleanup fresh := by
        simp [cleanupEligible] at hinel
        cases hdt : fresh.deletionTimestamp with
        | some v => simp
        | none =>
            simp [hdt] at hinel
            simp [hinel]
      have hfresh : processTrTTL fresh now2 = .ok ⟨false, none⟩ := by
        simp [processTrTTL, hguard]
      simp [processTaskRunExpired, hown, hexp, hfo, hfresh]
  · intro hfo
    simp [processTaskRunExpired, hown, hexp, hfo]
  · intro t hel htl ht
    obtain ⟨hdel, hcl⟩ := cleanupEligible_split fresh hel
    have hfo : fresh.HasPipelineRunOwnerReference = false :=
      taskRunCleanup_no_owner fresh hcl
    have hpos : ¬(t ≤ 0) := by omega
    have hfresh : processTrTTL fresh now2 = .ok ⟨false, some t⟩ := by
      simp [processTrTTL, hdel, hcl, htl, hpos]
    simp [processTaskRunExpired, hown, hexp, hfo, hfresh]

/-- Witness for the amended C1: an expired cached copy whose
authoritative copy has a deletion timestamp set (no longer eligible):
no requeue, no delete, no error. -/
theorem fresh_recheck_effects_witness :
    trC1cached.HasPipelineRunOwnerReference = false
    ∧ processTrTTL trC1cached 100 = .ok ⟨true, none⟩
    ∧ cleanupEligible trC1deleting = false
    ∧ processTaskRunExpired "ns" "n" trC1cached 100 100
        (.found trC1deleting) none = (none, ⟨[], []⟩) :=
  ⟨rfl, rfl, rfl,
    (fresh_recheck_effects "ns" "n" trC1cached trC1deleting 100 100 none
      rfl rfl).1 rfl⟩

/-- C6: any delete call issued by `processTaskRunExpired` targets the
freshly re-fetched copy's namespace and name, uses foreground
(dependent-removing) propagation, and carries a UID precondition equal
to the fresh copy's UID. -/
theorem delete_call_targets_fresh_copy (ns nm : String) (tr fresh : TaskRun)
    (now1 now2 : Int) (delErr : Option String) (c : DeleteCall)
    (hc : c ∈ (processTaskRunExpired ns nm tr now1 now2
        (.found fresh) delErr).2.deleted) :
    c = ⟨fresh.ns, fresh.name, Propagation.foreground, fresh.uid⟩ := by
  unfold processTaskRunExpired at hc
  by_cases h1 : tr.HasPipelineRunOwnerReference
  · simp [h1] at hc
  · simp only [h1] at hc
    cases h2 : processTrTTL tr now1 with
    | error e => simp [h2] at hc
    | ok c1 =>
        simp only [h2] at hc
        by_cases h3 : c1.expired
        · simp only [h3] at hc
          by_cases h4 : fresh.HasPipelineRunOwnerReference
          · simp [h4] at hc
          · simp only [h4] at hc
            cases h5 : processTrTTL fresh now2 with
            | error e => simp [h5] at hc
            | ok c2 =>
                simp only [h5] at hc
                by_cases h6 : c2.expired
                · simp [h6] at hc
                  exact hc
                · simp [h6] at hc
        · simp [h3] at hc

/-- Witness for C6: the delete issued for an expired run (fresh copy
identical to the cached one) has exactly the fresh copy's coordinates,
foreground propagation and UID precondition. -/
theorem delete_call_targets_fresh_copy_witness :
    (⟨"ns", "n", Propagation.foreground, "u1"⟩ : DeleteCall) ∈
      (processTaskRunExpired "ns" "n" trC1cached 100 100
        (.found trC1cached) none).2.deleted
    ∧ (⟨"ns", "n", Propagation.foreground, "u1"⟩ : DeleteCall) =
        ⟨trC1cached.ns, trC1cached.name, Propagation.foreground,
          trC1cached.uid⟩ :=
  ⟨by simp [processTaskRunExpired, processTrTTL, trTimeLeft,
      getFinishAndExpireTime, taskRunFinishTime, taskRunCleanup,
      TaskRun.IsDone, TaskRun.HasPipelineRunOwnerReference, trC1cached,
      ConditionSucceeded],
   delete_call_targets_fresh_copy "ns" "n" trC1cached trC1cached 100 100 none
     ⟨"ns", "n", Propagation.foreground, "u1"⟩
     (by simp [show processTaskRunExpired "ns" "n" trC1cached 100 100
          (.found trC1cached) none =
            (none, ⟨[], [⟨"ns", "n", Propagation.foreground, "u1"⟩]⟩) from rfl])⟩

/-- C7: when the authoritative re-fetch reports not-found, `ProcessKey`
returns success with no delete issued (so two successive invocations on
an already-deleted run are both error-free no-ops); when the re-fetch
fails for another reason, that error is returned to the caller. -/
theorem processTaskRunExpired_notFound_noop (ns nm : String) (tr : TaskRun)
    (now1 now2 : Int) (delErr : Option String)
    (hok : ∀ e : TRError, processTrTTL tr now1 ≠ .error e) :
    ((processTaskRunExpired ns nm tr now1 now2 .notFound delErr).1 = none
      ∧ (processTaskRunExpired ns nm tr now1 now2 .notFound delErr).2.deleted
          = [])
    ∧ (∀ msg : String, tr.HasPipelineRunOwnerReference = false →
        processTrTTL tr now1 = .ok ⟨true, none⟩ →
        processTaskRunExpired ns nm tr now1 now2 (.getError msg) delErr =
          (some (.storeError msg), ⟨[], []⟩)) := by
  constructor
  · by_cases h1 : tr.HasPipelineRunOwnerReference
    · simp [processTaskRunExpired, h1]
    · cases h2 : processTrTTL tr now1 with
      | error e => exact absurd h2 (hok e)
      | ok c1 =>
          by_cases h3 : c1.expired
          · simp [processTaskRunExpired, h1, h2, h3]
          · simp [processTaskRunExpired, h1, h2, h3]
  · intro msg h1 h2
    simp [processTaskRunExpired, h1, h2]

/-- Witness for C7: an expired eligible run whose authoritative copy is
gone: not-found yields success and no delete, a store error is
surfaced. -/
theorem processTaskRunExpired_notFound_noop_witness :
    ((processTaskRunExpired "ns" "n" trC1cached 100 100 .notFound none).1 = none
      ∧ (processTaskRunExpired "ns" "n" trC1cached 100 100
          .notFound none).2.deleted = [])
    ∧ processTaskRunExpired "ns" "n" trC1cached 100 100
        (.getError "boom") none = (some (.storeError "boom"), ⟨[], []⟩) :=
  ⟨(processTaskRunExpired_notFound_noop "ns" "n" trC1cached 100 100 none
      (fun e h => by
        rw [show processTrTTL trC1cached 100 = .ok ⟨true, none⟩ from rfl] at h
        exact Except.noConfusion h)).1,
   (processTaskRunExpired_notFound_noop "ns" "n" trC1cached 100 100 none
      (fun e h => by
        rw [show processTrTTL trC1cached 100 = .ok ⟨true, none⟩ from rfl] at h
        exact Except.noConfusion h)).2 "boom" rfl rfl⟩

/-- C9: on a run that the cleanup predicate claims is done but whose
terminal condition carries no usable finish time (`taskRunFinishTime`
errors), `ProcessKey` surfaces that error and neither succeeds silently
nor deletes. -/
theorem missing_finish_time_surfaces_error (ns nm : String) (tr : TaskRun)
    (now1 now2 : Int) (freshGet : GetResult) (delErr : Option String)
    (e : TRError)
    (hcl : taskRunCleanup tr = true)
    (hdel : tr.deletionTimestamp = none)
    (hft : taskRunFinishTime tr = .error e) :
    processTaskRunExpired ns nm tr now1 now2 freshGet delErr =
      (some e, ⟨[], []⟩) := by
  have hown : tr.HasPipelineRunOwnerReference = false :=
    taskRunCleanup_no_owner tr hcl
  have herr : processTrTTL tr now1 = .error e :=
    processTrTTL_error_of_bad_finish tr now1 e hcl hdel hft
  simp [processTaskRunExpired, hown, herr]

/-- A run that `taskRunCleanup` claims is done (TTL set, Succeeded
condition with status True) whose terminal condition has the zero
last-transition time. -/
def trNoFinish : TaskRun :=
  { ns := "ns", name := "n", uid := "u1", deletionTimestamp := none,
    ownerReferences := [],
    spec := { expirationSecondsTTL := some 60 },
    status := { conditions := [⟨ConditionSucceeded, .condTrue, none⟩] } }

/-- Witness for C9: the error for the missing transition time is
surfaced. -/
theorem missing_finish_time_surfaces_error_witness :
    taskRunCleanup trNoFinish = true
    ∧ trNoFinish.deletionTimestamp = none
    ∧ taskRunFinishTime trNoFinish = .error (.missingFinishTime "ns" "n")
    ∧ processTaskRunExpired "ns" "n" trNoFinish 100 100 .notFound none =
        (some (.missingFinishTime "ns" "n"), ⟨[], []⟩) :=
  ⟨rfl, rfl, rfl,
    missing_finish_time_surfaces_error "ns" "n" trNoFinish 100 100 .notFound
      none (.missingFinishTime "ns" "n") rfl rfl rfl⟩

/-- Recognizer for the `"should not be cleaned up"` error branch of
`getFinishAndExpireTime` (tools.go:127). -/
def isShouldNotBeCleanedUpError : Except TRError TTLCheck → Bool
  | .error (.shouldNotBeCleanedUp _ _) => true
  | _ => false

/-- C10: `processTrTTL` can never produce the "should not be cleaned
up" error: it computes time-left only after checking the very predicate
(`taskRunCleanup`, plus the deletion-timestamp guard) that
`getFinishAndExpireTime` re-tests. -/
theorem taskRunFinishTime_error_shape (tr : TaskRun) (e : TRError)
    (h : taskRunFinishTime tr = .error e) :
    e = .missingFinishTime tr.ns tr.name
      ∨ e = .missingSucceededStatus tr.ns tr.name := by
  unfold taskRunFinishTime at h
  split at h
  · split at h
    · cases h
      exact Or.inl rfl
    · exact Except.noConfusion h
  · cases h
    exact Or.inr rfl

/-- C10: `processTrTTL` can never produce the "should not be cleaned
up" error: it computes time-left only after checking the very predicate
(`taskRunCleanup`, plus the deletion-timestamp guard) that
`getFinishAndExpireTime` re-tests. -/
theorem shouldNotBeCleanedUp_unreachable (tr : TaskRun) (now : Int) :
    isShouldNotBeCleanedUpError (processTrTTL tr now) = false := by
  unfold processTrTTL
  by_cases hguard : tr.deletionTimestamp.isSome || !taskRunCleanup tr
  · simp [hguard, isShouldNotBeCleanedUpError]
  · have hcl : taskRunCleanup tr = true := by
      cases h : taskRunCleanup tr
      · simp [h] at hguard
      · rfl
    simp only [hguard]
    unfold trTimeLeft getFinishAndExpireTime
    rw [hcl]
    simp only [Bool.not_true]
    cases hft : taskRunFinishTime tr with
    | error e =>
        rcases taskRunFinishTime_error_shape tr e hft with h | h <;>
          subst h <;> simp [isShouldNotBeCleanedUpError]
    | ok t =>
        by_cases hle : t + tr.spec.expirationSecondsTTL.getD 0 - now ≤ 0
        · simp [hle, isShouldNotBeCleanedUpError]
        · simp [hle, isShouldNotBeCleanedUpError]

/-- A finished run with no TTL set. -/
def trNoTTL : TaskRun :=
  { ns := "ns", name := "n", uid := "u1", deletionTimestamp := none,
    ownerReferences := [],
    spec := { expirationSecondsTTL := none },
    status := { conditions := [⟨ConditionSucceeded, .condTrue, some 0⟩] } }

/-- A finished run with a TTL but owned by a PipelineRun. -/
def trOwned : TaskRun :=
  { trNoTTL with
    spec := { expirationSecondsTTL := some 60 },
    ownerReferences := [⟨"PipelineRun", "parent"⟩] }

/-- Witness for C2: a run without TTL and an owner-referenced run are
both ineligible. -/
theorem cleanupEligible_characterization_witness :
    trNoTTL.spec.expirationSecondsTTL = none
    ∧ cleanupEligible trNoTTL = false
    ∧ trOwned.HasPipelineRunOwnerReference = true
    ∧ cleanupEligible trOwned = false :=
  ⟨rfl, (cleanupEligible_characterization trNoTTL).2.1 rfl,
    rfl, (cleanupEligible_characterization trOwned).2.2 rfl⟩

/-! ## Data model of the Task spec validator (src/unnamed/part_000) -/

/-- An environment variable assignment on a step (`corev1.EnvVar`). -/
structure EnvVar where
  name : String
  value : String
deriving DecidableEq, Repr

/-- A volume mount on a step (`corev1.VolumeMount`), restricted to the
fields the validator reads. -/
structure VolumeMount where
  name : String
  mountPath : String
  subPath : String
deriving DecidableEq, Repr

/-- A declared volume (`corev1.Volume`), restricted to its name. -/
structure Volume where
  name : String
deriving DecidableEq, Repr

/-- A step (a container plus an optional inline script), restricted to
the fields the validator reads. -/
structure Step where
  name : String
  image : String
  command : List String
  args : List String
  workingDir : String
  script : String
  env : List EnvVar
  volumeMounts : List VolumeMount
deriving DecidableEq, Repr

/-- The empty step (Go zero value), also used as the default when a
field is omitted. -/
def Step.empty : Step :=
  { name := "", image := "", command := [], args := [], workingDir := "",
    script := "", env := [], volumeMounts := [] }

/-- Go `ParamType` is a string type; only `"string"` and `"array"` are
recognized. -/
abbrev ParamType := String

/-- `ParamTypeString`. -/
def ParamTypeString : ParamType := "string"

/-- `ParamTypeArray`. -/
def ParamTypeArray : ParamType := "array"

/-- `AllParamTypes`. -/
def AllParamTypes : List ParamType := [ParamTypeString, ParamTypeArray]

/-- A parameter default value (`ArrayOrString`), restricted to its
type tag and payloads. -/
structure ArrayOrString where
  type : ParamType
  stringVal : String
  arrayVal : List String
deriving DecidableEq, Repr

/-- A declared parameter (`ParamSpec`). -/
structure ParamSpec where
  name : String
  type : ParamType
  default : Option ArrayOrString
deriving DecidableEq, Repr

/-- A structured field error (`apis.FieldError`): message, field paths,
optional details. -/
structure FieldError where
  message : String
  paths : List String
  details : String
deriving DecidableEq, Repr

/-- `apis.ErrMissingField`. -/
def ErrMissingField (f : String) : FieldError :=
  { message := "missing field(s)", paths := [f], details := "" }

/-- `apis.ErrInvalidValue`. -/
def ErrInvalidValue (v f : String) : FieldError :=
  { message := "invalid value: " ++ v, paths := [f], details := "" }

/-- `FieldError.ViaField` with a single field, prefixing each path. -/
def FieldError.viaField (f : String) (e : FieldError) : FieldError :=
  { e with paths := e.paths.map fun p => if p = "" then f else f ++ "." ++ p }

/-! ## The substitution engine, modelled from the spec

The repository's `substitution` package (`ValidateVariable`,
`ValidateVariableProhibited`, `ValidateVariableIsolated`) lies outside
the provided slice; the definitions below are modelled from the spec:
a variable reference is "a textual occurrence of a template
placeholder bound to a declared parameter name", written
`$(params.name)`. -/

/-- Characters allowed in a referenced parameter name. -/
def isVarNameChar (c : Char) : Bool :=
  c.isAlphanum || c == '_' || c == '-' || c == '.'

/-- Modelled from the spec: the literal text of a reference to
parameter `v` under prefix `pfx`, i.e. `$(pfx.v)`. -/
def varRef (pfx v : String) : String :=
  "$(" ++ pfx ++ "." ++ v ++ ")"

/-- The opening text of a reference under prefix `pfx`: `$(pfx.`. -/
def refOpen (pfx : String) : List Char :=
  ("$(" ++ pfx ++ ".").data

/-- Reads a referenced name at the head of `s`: the longest run of
name characters, which must be non-empty and immediately followed by a
closing parenthesis. -/
def readRefName (s : List Char) : Option String :=
  let nm := s.takeWhile isVarNameChar
  if nm.isEmpty then none
  else
    match s.drop nm.length with
    | ')' :: _ => some (String.mk nm)
    | _ => none

/-- Strips `pat` from the front of `l`: the remainder when `pat` is a
prefix of `l`, and `none` otherwise. -/
def stripRefOpen (pat l : List Char) : Option (List Char) :=
  match pat with
  | [] => some l
  | a :: as =>
      match l with
      | [] => none
      | b :: bs => if a == b then stripRefOpen as bs else none

/-- Scans `s` left to right and collects, in order, the names of all
references `$(pfx.name)` occurring in it (`op` is `refOpen pfx`). -/
def scanRefs (op : List Char) : List Char → List String
  | [] => []
  | c :: rest =>
      (match stripRefOpen op (c :: rest) with
       | some afterOpen =>
           match readRefName afterOpen with
           | some nm => [nm]
           | none => []
       | none => []) ++ scanRefs op rest

/-- Modelled from the spec: all parameter names referenced from
`value` under prefix `pfx`, in textual order. -/
def extractVariables (value pfx : String) : List String :=
  scanRefs (refOpen pfx) value.data

/-- Modelled from the spec: "any reference to an undeclared parameter
name is an error regardless of context" — returns an error for the
first referenced name not in `vars`. -/
def ValidateVariable (name value pfx locationName path : String)
    (vars : List String) : Option FieldError :=
  (extractVariables value pfx).findSome? fun v =>
    if vars.contains v then none
    else
      some { message := "non-existent variable in " ++ value ++ " for "
                ++ locationName ++ " " ++ name,
             paths := [path ++ "." ++ name], details := "" }

/-- Modelled from the spec: "a parameter declared with array type must
never be referenced from a scalar context" — returns an error for the
first referenced name that lies in `arrayNames`. -/
def ValidateVariableProhibited (name value pfx locationName path : String)
    (arrayNames : List String) : Option FieldError :=
  (extractVariables value pfx).findSome? fun v =>
    if arrayNames.contains v then
      some { message := "variable type invalid in " ++ value ++ " for "
                ++ locationName ++ " " ++ name,
             paths := [path ++ "." ++ name], details := "" }
    else none

/-- Modelled from the spec: "a parameter referenced from an
array-eligible context must not be combined with other literal text or
other variables in the same token (an array reference is the entire
token, not a substring of it)" — a reference to a name in `arrayNames`
is an error unless it is the entire value. -/
def ValidateVariableIsolated (name value pfx locationName path : String)
    (arrayNames : List String) : Option FieldError :=
  (extractVariables value pfx).findSome? fun v =>
    if arrayNames.contains v && !(value == varRef pfx v) then
      some { message := "variable is not properly isolated in " ++ value
                ++ " for " ++ locationName ++ " " ++ name,
             paths := [path ++ "." ++ name], details := "" }
    else none

/-- `validateTaskVariable` (part_000:269). -/
def validateTaskVariable (name value pfx : String) (vars : List String) :
    Option FieldError :=
  ValidateVariable name value pfx "step" "taskspec.steps" vars

/-- `validateTaskNoArrayReferenced` (part_000:273). -/
def validateTaskNoArrayReferenced (name value pfx : String)
    (arrayNames : List String) : Option FieldError :=
  ValidateVariableProhibited name value pfx "step" "taskspec.steps" arrayNames

/-- `validateTaskArraysIsolated` (part_000:277). -/
def validateTaskArraysIsolated (name value pfx : String)
    (arrayNames : List String) : Option FieldError :=
  ValidateVariableIsolated name value pfx "step" "taskspec.steps" arrayNames

/-- One step's checks inside `validateVariables` (part_000:229-265):
name, image, workingDir, command tokens, args, env values, volume
mounts, each through `validateTaskVariable`, stopping at the first
error (Go `for` loops with early `return` become `findSome?`). -/
def checkStepVariables (pfx : String) (vars : List String) (s : Step) :
    Option FieldError :=
  (validateTaskVariable "name" s.name pfx vars).orElse fun _ =>
  (validateTaskVariable "image" s.image pfx vars).orElse fun _ =>
  (validateTaskVariable "workingDir" s.workingDir pfx vars).orElse fun _ =>
  (s.command.enum.findSome? fun p =>
    validateTaskVariable ("command[" ++ toString p.1 ++ "]") p.2 pfx
      vars).orElse fun _ =>
  (s.args.enum.findSome? fun p =>
    validateTaskVariable ("arg[" ++ toString p.1 ++ "]") p.2 pfx
      vars).orElse fun _ =>
  (s.env.findSome? fun e =>
    validateTaskVariable ("env[" ++ e.name ++ "]") e.value pfx
      vars).orElse fun _ =>
  s.volumeMounts.enum.findSome? fun p =>
    (validateTaskVariable ("volumeMount[" ++ toString p.1 ++ "].Name")
      p.2.name pfx vars).orElse fun _ =>
    (validateTaskVariable ("volumeMount[" ++ toString p.1 ++ "].MountPath")
      p.2.mountPath pfx vars).orElse fun _ =>
    validateTaskVariable ("volumeMount[" ++ toString p.1 ++ "].SubPath")
      p.2.subPath pfx vars

/-- `validateVariables` (part_000:228): steps in declaration order,
first error wins. -/
def validateVariables (steps : List Step) (pfx : String)
    (vars : List String) : Option FieldError :=
  steps.findSome? (checkStepVariables pfx vars)

/-- One step's checks inside `validateArrayUsage` (part_000:188-224):
scalar-context fields through `validateTaskNoArrayReferenced`, command
and argument tokens through `validateTaskArraysIsolated`. -/
def checkStepArrayUsage (pfx : String) (vars : List String) (s : Step) :
    Option FieldError :=
  (validateTaskNoArrayReferenced "name" s.name pfx vars).orElse fun _ =>
  (validateTaskNoArrayReferenced "image" s.image pfx vars).orElse fun _ =>
  (validateTaskNoArrayReferenced "workingDir" s.workingDir pfx
    vars).orElse fun _ =>
  (s.command.enum.findSome? fun p =>
    validateTaskArraysIsolated ("command[" ++ toString p.1 ++ "]") p.2 pfx
      vars).orElse fun _ =>
  (s.args.enum.findSome? fun p =>
    validateTaskArraysIsolated ("arg[" ++ toString p.1 ++ "]") p.2 pfx
      vars).orElse fun _ =>
  (s.env.findSome? fun e =>
    validateTaskNoArrayReferenced ("env[" ++ e.name ++ "]") e.value pfx
      vars).orElse fun _ =>
  s.volumeMounts.enum.findSome? fun p =>
    (validateTaskNoArrayReferenced ("volumeMount[" ++ toString p.1 ++ "].Name")
      p.2.name pfx vars).orElse fun _ =>
    (validateTaskNoArrayReferenced
      ("volumeMount[" ++ toString p.1 ++ "].MountPath")
      p.2.mountPath pfx vars).orElse fun _ =>
    validateTaskNoArrayReferenced ("volumeMount[" ++ toString p.1 ++ "].SubPath")
      p.2.subPath pfx vars

/-- `validateArrayUsage` (part_000:187). -/
def validateArrayUsage (steps : List Step) (pfx : String)
    (vars : List String) : Option FieldError :=
  steps.findSome? (checkStepArrayUsage pfx vars)

/-- `validateParameterVariables` (part_000:170): collects the declared
names and the declared array-typed names, then runs the undeclared
check over all steps and, only if it passes, the array-usage check. -/
def validateParameterVariables (steps : List Step)
    (params : List ParamSpec) : Option FieldError :=
  let parameterNames := params.map fun p => p.name
  let arrayParameterNames :=
    (params.filter fun p => p.type == ParamTypeArray).map fun p => p.name
  match validateVariables steps "params" parameterNames with
  | some e => some e
  | none => validateArrayUsage steps "params" arrayParameterNames

/-- `ValidateVolumes` (part_000:93): duplicate volume names are
rejected; accumulation through a Go map becomes a seen-names list. -/
def validateVolumesGo (seen : List String) : List Volume → Option FieldError
  | [] => none
  | v :: rest =>
      if seen.contains v.name then
        some { message := "multiple volumes with same name " ++ v.name,
               paths := ["name"], details := "" }
      else validateVolumesGo (v.name :: seen) rest

/-- `ValidateVolumes` entry point. -/
def ValidateVolumes (volumes : List Volume) : Option FieldError :=
  validateVolumesGo [] volumes

/-- `validateSteps` (part_000:108): image required; script mutually
exclusive with command/args and must begin with a shebang after
trimming; non-empty names must be unique. -/
def validateStepsGo (names : List String) : List Step → Option FieldError
  | [] => none
  | s :: rest =>
      if s.image == "" then some (ErrMissingField "Image")
      else if s.script != "" && (s.args.length > 0 || s.command.length > 0) then
        some { message := "script cannot be used with args or command",
               paths := ["script"], details := "" }
      else if s.script != "" && !(s.script.trim.startsWith "#!") then
        some { message := "script must start with a shebang (#!)",
               paths := ["script"], details := "" }
      else if s.name == "" then validateStepsGo names rest
      else if names.contains s.name then some (ErrInvalidValue s.name "name")
      else validateStepsGo (s.name :: names) rest

/-- `validateSteps` entry point. -/
def validateSteps (steps : List Step) : Option FieldError :=
  validateStepsGo [] steps

/-- `validateParameterTypes` (part_000:142). -/
def validateParameterTypes : List ParamSpec → Option FieldError
  | [] => none
  | p :: rest =>
      if !(AllParamTypes.contains p.type) then
        some (ErrInvalidValue p.type ("taskspec.params." ++ p.name ++ ".type"))
      else
        match p.default with
        | some d =>
            if !(d.type == p.type) then
              some { message := "\"" ++ p.type
                        ++ "\" type does not match default value's type: \""
                        ++ d.type ++ "\"",
                     paths := ["taskspec.params." ++ p.name ++ ".type",
                               "taskspec.params." ++ p.name ++ ".default.type"],
                     details := "" }
            else validateParameterTypes rest
        | none => validateParameterTypes rest

/-- Modelled from the spec: the Kubernetes DNS-1123 label check used at
part_000:76 ("a valid DNS-label-shaped token": lowercase alphanumerics
and dashes, starting and ending with an alphanumeric, at most 63
characters). -/
def isDNS1123Label (s : String) : Bool :=
  s.length ≤ 63 && !s.data.isEmpty
    && s.data.all (fun c => c.isLower || c.isDigit || c == '-')
    && (match s.data with
        | [] => false
        | c :: _ => c.isLower || c.isDigit)
    && (match s.data.getLast? with
        | none => false
        | some c => c.isLower || c.isDigit)

/-- The step-name DNS-label loop of `TaskSpec.Validate`
(part_000:75-83), which walks the original (unmerged) steps. -/
def validateStepNames : List Step → Option FieldError
  | [] => none
  | s :: rest =>
      if s.name != "" && !isDNS1123Label s.name then
        some { message := "invalid value \"" ++ s.name ++ "\"",
               paths := ["taskspec.steps.name"],
               details := "Task step name must be a valid DNS Label" }
      else validateStepNames rest

/-- Modelled from the spec: one step of `MergeStepsWithStepTemplate`
(repository code outside this slice): "template fields are defaults,
explicit step fields win" — empty string fields and empty list fields
of the step default to the template's (the template is a container, so
the step's script is untouched). -/
def mergeStep (tmpl s : Step) : Step :=
  { name := if s.name == "" then tmpl.name else s.name,
    image := if s.image == "" then tmpl.image else s.image,
    command := if s.command.isEmpty then tmpl.command else s.command,
    args := if s.args.isEmpty then tmpl.args else s.args,
    workingDir := if s.workingDir == "" then tmpl.workingDir else s.workingDir,
    script := s.script,
    env := if s.env.isEmpty then tmpl.env else s.env,
    volumeMounts :=
      if s.volumeMounts.isEmpty then tmpl.volumeMounts else s.volumeMounts }

/-- Modelled from the spec: `MergeStepsWithStepTemplate` (repository
code outside this slice).  A nil template leaves the steps untouched;
the merge itself cannot fail in this model, so the templating-error
branch of `TaskSpec.Validate` (part_000:53-58) is not representable. -/
def MergeStepsWithStepTemplate (template : Option Step)
    (steps : List Step) : List Step :=
  match template with
  | none => steps
  | some t => steps.map (mergeStep t)

/-- A Task specification (`TaskSpec`), restricted to the fields the
validator reads.  `resources` abstracts the result of the external
`ts.Resources.Validate(ctx)` call (part_000:65), whose implementation
lies outside this slice: `none` means that check passes. -/
structure TaskSpec where
  steps : List Step
  volumes : List Volume
  stepTemplate : Option Step
  params : List ParamSpec
  resources : Option FieldError
deriving DecidableEq, Repr

/-- The zero `TaskSpec{}` against which `equality.Semantic.DeepEqual`
compares (part_000:42). -/
def emptyTaskSpec : TaskSpec :=
  { steps := [], volumes := [], stepTemplate := none, params := [],
    resources := none }

/-- `TaskSpec.Validate` (part_000:41): the validator's sequence of
checks, in source order.  Note that the DNS-label loop and the final
`validateParameterVariables` call walk `ts.steps` (the original steps),
while `validateSteps` walks the merged steps. -/
def TaskSpec.Validate (ts : TaskSpec) : Option FieldError :=
  if ts = emptyTaskSpec then some (ErrMissingField "") else
  if ts.steps.isEmpty then some (ErrMissingField "steps") else
  match (ValidateVolumes ts.volumes).map (FieldError.viaField "volumes") with
  | some e => some e
  | none =>
    match (validateSteps (MergeStepsWithStepTemplate ts.stepTemplate
        ts.steps)).map (FieldError.viaField "steps") with
    | some e => some e
    | none =>
      match ts.resources with
      | some e => some e
      | none =>
        match validateParameterTypes ts.params with
        | some e => some e
        | none =>
          match validateStepNames ts.steps with
          | some e => some e
          | none => validateParameterVariables ts.steps ts.params

/-! ## Claim theorems for the validator -/

/-- A step template whose workingDir holds a reference to the
array-typed parameter `arr`. -/
def tmplC4 : Step := { Step.empty with workingDir := "$(params.arr)" }

/-- A step that only sets an image. -/
def stepImgOnly : Step := { Step.empty with image := "busybox" }

/-- A Task spec whose only array-in-scalar violation lives in the step
template, not in the declared steps. -/
def tsC4 : TaskSpec :=
  { steps := [stepImgOnly], volumes := [],
    stepTemplate := some tmplC4, params := [⟨"arr", ParamTypeArray, none⟩],
    resources := none }

/-- C4, counterexample: `Validate` accepts `tsC4`, yet the variable
usage analysis applied to the merged step list rejects it — so the
analysis is not run over the merged steps but over the original ones. -/
theorem Validate_uses_unmerged_steps_cex :
    tsC4.Validate = none
    ∧ (validateParameterVariables
        (MergeStepsWithStepTemplate tsC4.stepTemplate tsC4.steps)
        tsC4.params).isSome = true :=
  ⟨rfl, rfl⟩

/-- C4, amended: the variable usage analysis is invoked last in
`TaskSpec.Validate` (its verdict is the validator's verdict once every
earlier check passes), but over the original declared step list
`ts.steps` together with the declared parameter set — not over the
merged step list. -/
theorem Validate_param_variables_last (ts : TaskSpec)
    (h0 : ¬ts = emptyTaskSpec)
    (h1 : ts.steps.isEmpty = false)
    (h2 : ValidateVolumes ts.volumes = none)
    (h3 : validateSteps (MergeStepsWithStepTemplate ts.stepTemplate ts.steps)
        = none)
    (h4 : ts.resources = none)
    (h5 : validateParameterTypes ts.params = none)
    (h6 : validateStepNames ts.steps = none) :
    ts.Validate = validateParameterVariables ts.steps ts.params := by
  simp [TaskSpec.Validate, h0, h1, h2, h3, h4, h5, h6]

/-- A well-formed spec exercising the amended C4: one step whose args
hold an isolated array reference. -/
def stepList : Step :=
  { Step.empty with image := "busybox", args := ["$(params.list)"] }

/-- The spec declaring the array parameter `list`. -/
def tsList : TaskSpec :=
  { steps := [stepList], volumes := [], stepTemplate := none,
    params := [⟨"list", ParamTypeArray, none⟩], resources := none }

/-- Witness for the amended C4. -/
theorem Validate_param_variables_last_witness :
    ¬tsList = emptyTaskSpec
    ∧ tsList.steps.isEmpty = false
    ∧ ValidateVolumes tsList.volumes = none
    ∧ validateSteps (MergeStepsWithStepTemplate tsList.stepTemplate
        tsList.steps) = none
    ∧ tsList.resources = none
    ∧ validateParameterTypes tsList.params = none
    ∧ validateStepNames tsList.steps = none
    ∧ tsList.Validate = validateParameterVariables tsList.steps tsList.params :=
  ⟨by decide, rfl, rfl, rfl, rfl, rfl, rfl,
    Validate_param_variables_last tsList (by decide) rfl rfl rfl rfl rfl rfl⟩

/-! ## The walk order of the variable-usage analyzer -/

/-- Context classification of a templated field (spec §3): scalar
context, or array-eligible context (command/argument tokens only). -/
inductive VarCtx where
  | scalar
  | arrayEligible
deriving DecidableEq, Repr

/-- The templated fields of one step in the analyzer's fixed walk
order — name, image, workingDir, command tokens in order, argument
tokens in order, environment values in order, volume mounts in order
(name, mountPath, subPath) — each as (field label, text, context),
with the labels the analyzer uses. -/
def stepFieldsInOrder (s : Step) : List (String × String × VarCtx) :=
  [("name", s.name, VarCtx.scalar), ("image", s.image, VarCtx.scalar),
   ("workingDir", s.workingDir, VarCtx.scalar)]
  ++ (s.command.enum.map fun p =>
      ("command[" ++ toString p.1 ++ "]", p.2, VarCtx.arrayEligible))
  ++ (s.args.enum.map fun p =>
      ("arg[" ++ toString p.1 ++ "]", p.2, VarCtx.arrayEligible))
  ++ (s.env.map fun e => ("env[" ++ e.name ++ "]", e.value, VarCtx.scalar))
  ++ (s.volumeMounts.enum.flatMap fun p =>
      [("volumeMount[" ++ toString p.1 ++ "].Name", p.2.name, VarCtx.scalar),
       ("volumeMount[" ++ toString p.1 ++ "].MountPath", p.2.mountPath,
         VarCtx.scalar),
       ("volumeMount[" ++ toString p.1 ++ "].SubPath", p.2.subPath,
         VarCtx.scalar)])

/-- The first undeclared-parameter violation in the fixed walk order
(the spec-side description of the analyzer's first pass). -/
def firstUndeclaredViolation (steps : List Step) (params : List ParamSpec) :
    Option FieldError :=
  (steps.flatMap stepFieldsInOrder).findSome? fun t =>
    validateTaskVariable t.1 t.2.1 "params" (params.map fun p => p.name)

/-- The first array-usage violation in the fixed walk order: the
prohibited check on scalar-context fields, the isolation check on
array-eligible fields (the spec-side description of the analyzer's
second pass). -/
def firstArrayViolation (steps : List Step) (params : List ParamSpec) :
    Option FieldError :=
  (steps.flatMap stepFieldsInOrder).findSome? fun t =>
    match t.2.2 with
    | VarCtx.scalar =>
        validateTaskNoArrayReferenced t.1 t.2.1 "params"
          ((params.filter fun p => p.type == ParamTypeArray).map fun p =>
            p.name)
    | VarCtx.arrayEligible =>
        validateTaskArraysIsolated t.1 t.2.1 "params"
          ((params.filter fun p => p.type == ParamTypeArray).map fun p =>
            p.name)

theorem orElse_eq_or {α : Type} (a b : Option α) :
    (a.orElse fun _ => b) = a.or b := by
  cases a <;> rfl

theorem findSome_cons_or {α β : Type} (f : α → Option β) (a : α)
    (l : List α) : (a :: l).findSome? f = (f a).or (l.findSome? f) := by
  cases h : f a <;> simp [List.findSome?_cons, h]

theorem findSome_flatMap {α β γ : Type} (g : α → List β) (f : β → Option γ) :
    ∀ l : List α,
      (l.flatMap g).findSome? f = l.findSome? fun a => (g a).findSome? f
  | [] => rfl
  | x :: xs => by
      rw [List.flatMap_cons, List.findSome?_append]
      cases h : (x :: xs).findSome? fun a => (g a).findSome? f with
      | _ =>
          rw [findSome_cons_or] at h
          rw [findSome_flatMap g f xs] at *
          rw [h]

theorem checkStepVariables_eq_walk (pfx : String) (vars : List String)
    (s : Step) :
    checkStepVariables pfx vars s =
      (stepFieldsInOrder s).findSome? fun t =>
        validateTaskVariable t.1 t.2.1 pfx vars := by
  unfold checkStepVariables stepFieldsInOrder
  simp only [List.findSome?_append, List.findSome?_map, findSome_cons_or,
    findSome_flatMap, List.findSome?_nil, Option.or_none, orElse_eq_or,
    Option.or_assoc, Function.comp]
  rfl

theorem checkStepArrayUsage_eq_walk (pfx : String) (vars : List String)
    (s : Step) :
    checkStepArrayUsage pfx vars s =
      (stepFieldsInOrder s).findSome? fun t =>
        match t.2.2 with
        | VarCtx.scalar => validateTaskNoArrayReferenced t.1 t.2.1 pfx vars
        | VarCtx.arrayEligible =>
            validateTaskArraysIsolated t.1 t.2.1 pfx vars := by
  unfold checkStepArrayUsage stepFieldsInOrder
  simp only [List.findSome?_append, List.findSome?_map, findSome_cons_or,
    findSome_flatMap, List.findSome?_nil, Option.or_none, orElse_eq_or,
    Option.or_assoc, Function.comp]
  rfl

theorem validateVariables_eq_walk (pfx : String) (vars : List String) :
    ∀ steps : List Step,
      validateVariables steps pfx vars =
        (steps.flatMap stepFieldsInOrder).findSome? fun t =>
          validateTaskVariable t.1 t.2.1 pfx vars
  | [] => rfl
  | s :: rest => by
      rw [List.flatMap_cons, List.findSome?_append,
        ← checkStepVariables_eq_walk pfx vars s,
        ← validateVariables_eq_walk pfx vars rest]
      unfold validateVariables
      rw [findSome_cons_or]

theorem validateArrayUsage_eq_walk (pfx : String) (vars : List String) :
    ∀ steps : List Step,
      validateArrayUsage steps pfx vars =
        (steps.flatMap stepFieldsInOrder).findSome? fun t =>
          match t.2.2 with
          | VarCtx.scalar => validateTaskNoArrayReferenced t.1 t.2.1 pfx vars
          | VarCtx.arrayEligible =>
              validateTaskArraysIsolated t.1 t.2.1 pfx vars
  | [] => rfl
  | s :: rest => by
      rw [List.flatMap_cons, List.findSome?_append,
        ← checkStepArrayUsage_eq_walk pfx vars s,
        ← validateArrayUsage_eq_walk pfx vars rest]
      unfold validateArrayUsage
      rw [findSome_cons_or]

/-- C5 (amended form): the analyzer's verdict is NOT the first
violation of any kind in the walk order; it is two full passes in the
walk order — the earliest undeclared-parameter violation across all
steps and fields first, and only when no such violation exists, the
earliest array-usage violation. -/
theorem validateParameterVariables_two_pass (steps : List Step)
    (params : List ParamSpec) :
    validateParameterVariables steps params =
      match firstUndeclaredViolation steps params with
      | some e => some e
      | none => firstArrayViolation steps params := by
  simp only [validateParameterVariables, firstUndeclaredViolation,
    firstArrayViolation]
  rw [validateVariables_eq_walk, validateArrayUsage_eq_walk]

/-- A step whose earliest field (`name`) holds an array-in-scalar
violation while a later field (`image`) references an undeclared
parameter. -/
def stepC5 : Step :=
  { Step.empty with name := "$(params.a)", image := "$(params.b)" }

/-- The parameter list declaring only the array parameter `a`. -/
def paramsC5 : List ParamSpec := [⟨"a", ParamTypeArray, none⟩]

/-- C5, counterexample: the earliest violating field in the walk order
is `name` (an array reference in a scalar context, rejected by the
prohibited check, while the declared-name check passes there), yet the
analyzer reports the undeclared-variable violation of the later field
`image` — so the reported violation is not the one at the earliest
position in the fixed order. -/
theorem validateParameterVariables_order_cex :
    validateParameterVariables [stepC5] paramsC5 =
      some { message := "non-existent variable in $(params.b) for step image",
             paths := ["taskspec.steps.image"], details := "" }
    ∧ (validateTaskNoArrayReferenced "name" "$(params.a)" "params"
        ["a"]).isSome = true
    ∧ validateTaskVariable "name" "$(params.a)" "params" ["a"] = none :=
  ⟨rfl, rfl, rfl⟩

theorem scanRefs_skip (t : List Char) (c : Char) (hc : c ≠ '$')
    (l : List Char) : scanRefs ('$' :: t) (c :: l) = scanRefs ('$' :: t) l := by
  simp [scanRefs, stripRefOpen, beq_false_of_ne (Ne.symm hc)]

theorem scanRefs_nil_of_no_dollar (t : List Char) :
    ∀ l : List Char, (∀ c ∈ l, c ≠ '$') → scanRefs ('$' :: t) l = []
  | [], _ => rfl
  | c :: rest, h => by
      rw [scanRefs_skip t c (h c (List.mem_cons_self c rest)) rest]
      exact scanRefs_nil_of_no_dollar t rest
        (fun x hx => h x (List.mem_cons_of_mem c hx))

theorem takeWhile_append_all (p : Char → Bool) :
    ∀ l m : List Char, l.all p = true →
      (l ++ m).takeWhile p = l ++ m.takeWhile p
  | [], _, _ => rfl
  | c :: rest, m, h => by
      rw [List.all_cons, Bool.and_eq_true] at h
      simp [List.takeWhile_cons, h.1, takeWhile_append_all p rest m h.2]

theorem extractVariables_varRef (a : String)
    (h1 : a.data.isEmpty = false) (h2 : a.data.all isVarNameChar = true) :
    extractVariables (varRef "params" a) "params" = [a] := by
  have hnd : ∀ c ∈ a.data ++ [')'], c ≠ '$' := by
    intro c hc
    rcases List.mem_append.mp hc with h | h
    · intro e
      subst e
      rw [List.all_eq_true] at h2
      exact absurd (h2 _ h) (by decide)
    · simp at h
      subst h
      decide
  have htw : (a.data ++ [')']).takeWhile isVarNameChar = a.data := by
    rw [takeWhile_append_all isVarNameChar a.data [')'] h2,
      show List.takeWhile isVarNameChar [')'] = [] from rfl, List.append_nil]
  have hread : readRefName (a.data ++ [')']) = some a := by
    simp only [readRefName, htw, h1]
    rw [List.drop_left]
    rfl
  have htail : scanRefs (refOpen "params") (a.data ++ [')']) = [] :=
    scanRefs_nil_of_no_dollar ("(params.".data) (a.data ++ [')']) hnd
  calc extractVariables (varRef "params" a) "params"
      = (match readRefName (a.data ++ [')']) with
          | some nm => [nm]
          | none => []) ++
          scanRefs (refOpen "params") (a.data ++ [')']) := rfl
    _ = [a] := by rw [hread, htail, List.append_nil]

theorem findSome_isSome_of_mem {α β : Type} (f : α → Option β) (l : List α)
    (a : α) (ha : a ∈ l) (hf : (f a).isSome = true) :
    (l.findSome? f).isSome = true := by
  cases h : l.findSome? f with
  | some b => rfl
  | none =>
      rw [List.findSome?_eq_none_iff] at h
      rw [h a ha] at hf
      cases hf

/-- C8: for a declared array-typed parameter `a` (a well-formed name),
a reference to it inside a scalar-context field is rejected by the
prohibited check; a command/argument token equal to exactly the
reference is accepted by the isolation check; and a token containing
the reference combined with any other text is rejected by the
isolation check. -/
theorem array_reference_contexts (a fieldName value : String)
    (arrayNames : List String)
    (ha : arrayNames.contains a = true)
    (h1 : a.data.isEmpty = false)
    (h2 : a.data.all isVarNameChar = true) :
    ((extractVariables value "params").contains a = true →
      (validateTaskNoArrayReferenced fieldName value "params"
        arrayNames).isSome = true)
    ∧ validateTaskArraysIsolated fieldName (varRef "params" a) "params"
        arrayNames = none
    ∧ ((extractVariables value "params").contains a = true →
        ¬value = varRef "params" a →
        (validateTaskArraysIsolated fieldName value "params"
          arrayNames).isSome = true) := by
  have hamem : a ∈ arrayNames := by simpa using ha
  refine ⟨?_, ?_, ?_⟩
  · intro hmem
    have hm : a ∈ extractVariables value "params" := by simpa using hmem
    unfold validateTaskNoArrayReferenced ValidateVariableProhibited
    exact findSome_isSome_of_mem _ _ a hm (by simp [hamem])
  · unfold validateTaskArraysIsolated ValidateVariableIsolated
    rw [extractVariables_varRef a h1 h2]
    simp [List.findSome?_cons, hamem]
  · intro hmem hne
    have hm : a ∈ extractVariables value "params" := by simpa using hmem
    unfold validateTaskArraysIsolated ValidateVariableIsolated
    refine findSome_isSome_of_mem _ _ a hm ?_
    have hb : (value == varRef "params" a) = false := by
      simp [hne]
    simp [hamem, hb]

/-- Witness for C8: parameter `list`, token `$(params.list)` accepted,
token `prefix-$(params.list)` rejected (isolation), and the same
reference inside a scalar-context field rejected (prohibited). -/
theorem array_reference_contexts_witness :
    (["list"] : List String).contains "list" = true
    ∧ ("list" : String).data.isEmpty = false
    ∧ ("list" : String).data.all isVarNameChar = true
    ∧ (extractVariables "prefix-$(params.list)" "params").contains "list" = true
    ∧ ¬("prefix-$(params.list)" : String) = varRef "params" "list"
    ∧ (validateTaskNoArrayReferenced "workingDir" "prefix-$(params.list)"
        "params" ["list"]).isSome = true
    ∧ validateTaskArraysIsolated "arg[0]" (varRef "params" "list") "params"
        ["list"] = none
    ∧ (validateTaskArraysIsolated "arg[0]" "prefix-$(params.list)" "params"
        ["list"]).isSome = true :=
  ⟨rfl, rfl, rfl, rfl, by decide,
    (array_reference_contexts "list" "workingDir" "prefix-$(params.list)"
      ["list"] rfl rfl rfl).1 rfl,
    (array_reference_contexts "list" "arg[0]" "prefix-$(params.list)"
      ["list"] rfl rfl rfl).2.1,
    (array_reference_contexts "list" "arg[0]" "prefix-$(params.list)"
      ["list"] rfl rfl rfl).2.2 rfl (by decide)⟩
